import Mathlib

/-!
Verification of the AI-RM banking chatbot backend.

This file gives a shallow embedding of the repository's core logic
(`chatbot/data_service.py`, `chatbot/gemini_service.py`, `chatbot/views.py`)
and proves or refutes the specification's claims about it.

Modelling conventions:
* Python floats / Django decimals are modelled as exact rationals (`ℚ`).
* Python `date` values are day numbers (`Int`); `(d1 - d2).days` is plain
  integer subtraction.  Server timestamps are `Nat` counters.
* Python dicts are association lists in insertion order; `d[k] = v` keeps the
  position of an existing key and appends new keys at the end, exactly as
  CPython dicts do.
* `sorted` (stable) is modelled by a stable insertion sort.
* The external text-generation service is nondeterministic, so each call site
  takes the outcome of the call (`ServiceOutcome`) as an explicit parameter.
* Fallible code returns `Except`; "returns `{}` for missing data" becomes
  `Option`.
-/

namespace Chatbot

/-! ## String normalization helpers

`s.replace('_', ' ')` on a single-character pattern is a character map.
`str.title()` upper-cases a letter that follows a non-letter and lower-cases
a letter that follows a letter (ASCII approximation of Python's cased-ness).
`str.strip()` removes leading and trailing whitespace; `str.lower()`
lower-cases every character. -/

def underscoreToSpace (s : String) : String :=
  ⟨s.data.map (fun c => if c = '_' then ' ' else c)⟩

def pyTitleGo : Bool → List Char → List Char
  | _, [] => []
  | prevAlpha, c :: cs =>
      (if c.isAlpha then (if prevAlpha then c.toLower else c.toUpper) else c)
        :: pyTitleGo c.isAlpha cs

def pyTitle (s : String) : String := ⟨pyTitleGo false s.data⟩

/-- `category.replace('_', ' ').title()` — the display normalization used in
`data_service.py` and in the upload/portfolio views. -/
def normalizeName (s : String) : String := pyTitle (underscoreToSpace s)

def pyStrip (s : String) : String :=
  ⟨((s.data.dropWhile Char.isWhitespace).reverse.dropWhile Char.isWhitespace).reverse⟩

def pyLower (s : String) : String := ⟨s.data.map Char.toLower⟩

/-! ## Python dict as an insertion-ordered association list -/

/-- `d.get(k, 0)` for a `str → float` dict (keys are unique, so first match). -/
def dictGet : List (String × ℚ) → String → ℚ
  | [], _ => 0
  | p :: ps, k => if p.1 == k then p.2 else dictGet ps k

/-- `d[k] = v`: overwrite in place if the key exists, else append. -/
def dictSet : List (String × ℚ) → String → ℚ → List (String × ℚ)
  | [], k, v => [(k, v)]
  | p :: ps, k, v => if p.1 == k then (p.1, v) :: ps else p :: dictSet ps k v

/-- `d[k] = d.get(k, 0) + v` fused (used where the source reads then writes). -/
def dictAdd : List (String × ℚ) → String → ℚ → List (String × ℚ)
  | [], k, v => [(k, v)]
  | p :: ps, k, v => if p.1 == k then (p.1, p.2 + v) :: ps else p :: dictAdd ps k v

def dictKeys (d : List (String × ℚ)) : List String := d.map Prod.fst

/-! ## Stable sorting (Python `sorted`) -/

/-- Insert `x` after every already-placed element `y` with `before y x`;
with `before` reflexive on equal keys this is a stable insertion. -/
def insertSorted (before : α → α → Bool) (x : α) : List α → List α
  | [] => [x]
  | y :: ys => if before y x then y :: insertSorted before x ys else x :: y :: ys

/-- Stable sort: elements are inserted in their original order, each going
after all earlier elements that compare before-or-equal. -/
def stableSortBy (before : α → α → Bool) (l : List α) : List α :=
  l.foldl (fun acc x => insertSorted before x acc) []

/-! ## Python `round(x, 2)` (round half to even) on the rational model -/

def roundHalfEven (q : ℚ) : ℤ :=
  if q - ⌊q⌋ < 1/2 then ⌊q⌋
  else if 1/2 < q - ⌊q⌋ then ⌊q⌋ + 1
  else if ⌊q⌋ % 2 = 0 then ⌊q⌋ else ⌊q⌋ + 1

def round2 (q : ℚ) : ℚ := ((roundHalfEven (q * 100) : ℤ) : ℚ) / 100

/-! ## Data model (`chatbot/models.py`) -/

structure Customer where
  customer_id : String
  name : String
  age : Int
  risk_level : String
  annual_income : ℚ
  financial_goals : String
  account_opening_date : Int
  email : String
  phone : String
deriving DecidableEq, Repr

structure Transaction where
  transaction_id : String
  customer_id : String
  date : Int
  category : String
  merchant : String
  amount : ℚ
  payment_method : String
  description : String
deriving DecidableEq, Repr

structure Investment where
  investment_id : String
  customer_id : String
  product_type : String
  product_name : String
  purchase_date : Int
  invested_amount : ℚ
  current_value : ℚ
  units : ℚ
  purchase_nav : ℚ
  current_nav : ℚ
  returns_absolute : ℚ
  returns_percentage : ℚ
  risk_level : String
deriving DecidableEq, Repr

structure ChatConversation where
  conversation_id : String
  customer_id : String
  started_at : Nat
  is_active : Bool
deriving DecidableEq, Repr

structure ChatMessage where
  conversation_id : String
  role : String
  content : String
  timestamp : Nat
  intent : Option String
  data_sources : List String
  thought_signature : Option String
deriving DecidableEq, Repr

structure UploadedFileRec where
  id : Nat
  file_name : String
  file_type : String
  uploaded_by : String
  processed : Bool
  records_imported : Nat
deriving DecidableEq, Repr

structure Store where
  customers : List Customer
  transactions : List Transaction
  investments : List Investment
  conversations : List ChatConversation
  messages : List ChatMessage
  uploadedFiles : List UploadedFileRec
deriving Repr

/-! ## `DataService._calculate_transaction_summary` -/

def totalSpent (txns : List Transaction) : ℚ := (txns.map (·.amount)).sum

/-- `category_spending` built by `category_spending[t.category] =
category_spending.get(t.category, 0) + float(t.amount)` over the list. -/
def categorySpending (txns : List Transaction) : List (String × ℚ) :=
  txns.foldl (fun d t => dictSet d t.category (dictGet d t.category + t.amount)) []

/-- The dict comprehension `{k.replace('_',' ').title(): v for k, v in
category_spending.items()}`: later entries overwrite earlier ones whose
normalized key collides. -/
def categoryBreakdown (spending : List (String × ℚ)) : List (String × ℚ) :=
  spending.foldl (fun d p => dictSet d (normalizeName p.1) p.2) []

/-- `(max(dates) - min(dates)).days` over the transactions' dates;
0 for an empty list (the source never evaluates it there). -/
def dateSpanDays : List Transaction → Int
  | [] => 0
  | t :: ts =>
      ts.foldl (fun m u => max m u.date) t.date
        - ts.foldl (fun m u => min m u.date) t.date

/-- `months_covered = (max(dates) - min(dates)).days / 30 or 1`:
the Python `or 1` replaces the value by 1 only when it is exactly `0.0`. -/
def monthsCovered (txns : List Transaction) : ℚ :=
  if ((dateSpanDays txns : ℚ) / 30) = 0 then 1 else (dateSpanDays txns : ℚ) / 30

structure TransactionSummary where
  total_spent : ℚ
  monthly_average : ℚ
  top_categories : List String
  category_breakdown : List (String × ℚ)
  transaction_count : Nat
deriving DecidableEq, Repr

/-- `_calculate_transaction_summary`; `none` models the `{}` returned for an
empty transaction set. -/
def calcTransactionSummary (txns : List Transaction) : Option TransactionSummary :=
  if txns.isEmpty then none
  else
    let spending := categorySpending txns
    let topCats := (stableSortBy (fun a b => b.2 ≤ a.2) spending).take 5
    some
      { total_spent := totalSpent txns
        monthly_average :=
          if (txns.map (·.date)).isEmpty then 0
          else totalSpent txns / monthsCovered txns
        top_categories := (topCats.take 3).map (fun p => normalizeName p.1)
        category_breakdown := categoryBreakdown spending
        transaction_count := txns.length }

/-! ## `DataService._calculate_investment_summary` -/

structure InvestmentSummary where
  total_invested : ℚ
  current_value : ℚ
  total_returns : ℚ
  return_percentage : ℚ
  product_types : List String
  investment_count : Nat
  best_performer : Option (String × ℚ)
deriving DecidableEq, Repr

/-- `max(investments, key=lambda x: x.returns_percentage)`: Python `max`
keeps the first maximal element, replacing only on strict improvement. -/
def bestInvestment (i : Investment) (is' : List Investment) : Investment :=
  is'.foldl (fun best j =>
    if best.returns_percentage < j.returns_percentage then j else best) i

/-- `_calculate_investment_summary`; `none` models the `{}` returned for an
empty investment set. -/
def calcInvestmentSummary : List Investment → Option InvestmentSummary
  | [] => none
  | i :: is' =>
      let invs := i :: is'
      let total_invested := (invs.map (·.invested_amount)).sum
      let current_value := (invs.map (·.current_value)).sum
      let total_returns := current_value - total_invested
      let best := bestInvestment i is'
      some
        { total_invested := total_invested
          current_value := current_value
          total_returns := total_returns
          return_percentage :=
            if 0 < total_invested then total_returns / total_invested * 100 else 0
          product_types :=
            dictKeys (invs.foldl (fun d j => dictAdd d (normalizeName j.product_type) 1) [])
          investment_count := invs.length
          best_performer := some (best.product_name, best.returns_percentage) }

/-! ## `DataService.get_portfolio_allocation` -/

/-- `values('product_type').annotate(total_value=Sum('current_value'))`:
group the customer's investments by raw product type, summing current value
(groups in first-encounter order). -/
def groupByType (invs : List Investment) : List (String × ℚ) :=
  invs.foldl (fun d i => dictAdd d i.product_type i.current_value) []

def totalCurrentValue (invs : List Investment) : ℚ := (invs.map (·.current_value)).sum

structure AllocationEntry where
  product_type : String
  value : ℚ
  percentage : ℚ
deriving DecidableEq, Repr

/-- `get_portfolio_allocation` applied to a customer's investments: the
`total_value` field and the `allocation` list. -/
def getPortfolioAllocation (invs : List Investment) : ℚ × List AllocationEntry :=
  let allocation := groupByType invs
  let total := (allocation.map Prod.snd).sum
  (total,
    allocation.map (fun p =>
      { product_type := normalizeName p.1
        value := p.2
        percentage := if 0 < total then round2 (p.2 / total * 100) else 0 }))

/-! ## `DataService.get_customer_context` -/

structure CustomerContext where
  customer : Customer
  transactions : List Transaction
  investments : List Investment
  transaction_summary : Option TransactionSummary
  investment_summary : Option InvestmentSummary
deriving DecidableEq, Repr

/-- The context body of `get_customer_context` once the customer is found:
transactions of the customer dated within the trailing 180 days, newest
first (stable), capped at 50; all investments of the customer. -/
def buildCustomerContext (store : Store) (today : Int) (customer : Customer) :
    CustomerContext :=
  let sixMonthsAgo := today - 180
  let recent :=
    (stableSortBy (fun a b => b.date ≤ a.date)
      (store.transactions.filter
        (fun t => t.customer_id == customer.customer_id && sixMonthsAgo ≤ t.date))).take 50
  let invs := store.investments.filter (fun i => i.customer_id == customer.customer_id)
  { customer := customer
    transactions := recent
    investments := invs
    transaction_summary := calcTransactionSummary recent
    investment_summary := calcInvestmentSummary invs }

/-- `get_customer_context(customer_id)`.  `today` is `datetime.now().date()`;
`none` models the `{}` returned when the customer does not exist. -/
def getCustomerContext (store : Store) (today : Int) (customer_id : String) :
    Option CustomerContext :=
  match store.customers.find? (fun c => c.customer_id == customer_id) with
  | none => none
  | some customer => some (buildCustomerContext store today customer)

/-! ## `GeminiService` (`chatbot/gemini_service.py`)

The external generation API is nondeterministic; an outcome of one call is
either generated text with nonempty `parts`, a response with empty `parts`,
or a raised exception. -/

inductive ServiceOutcome
  | ok (text : String)
  | emptyParts
  | raises (msg : String)
deriving DecidableEq, Repr

def intentLabels : List String :=
  ["transaction_analysis", "investment_overview", "recommendation",
   "general_query", "summary"]

/-- `classify_intent`: on nonempty parts, `response.text.strip().lower()` (the
raw model text, whatever it is); on empty parts or any exception,
`"general_query"`.  The function is total: no error propagates. -/
def classifyIntent : ServiceOutcome → String
  | .ok text => pyLower (pyStrip text)
  | .emptyParts => "general_query"
  | .raises _ => "general_query"

def emptyPartsFallback : String :=
  "I\x27m having trouble thinking of a detailed response. Could you ask differently?"

def exceptionFallback : String :=
  "Oops, technical glitch! 😅 Try again in a moment."

structure GenResult where
  response : String
  thought_signature : Option String
  model_used : Option String
  error : Option String
deriving DecidableEq, Repr

/-- `generate_response`, abstracted over the outcome of the one external
call (the prompt text it assembles does not determine the outcome and is
out of scope per the spec).  On nonempty parts the text is
`_humanize_response`, i.e. `response.strip()`; on empty parts a fixed
message; on exception a different fixed message with no
`thought_signature`/`model_used` keys (modelled as `none`). -/
def generateResponse : ServiceOutcome → GenResult
  | .ok text =>
      { response := pyStrip text, thought_signature := none
        model_used := some "gemini-2.0-flash", error := none }
  | .emptyParts =>
      { response := emptyPartsFallback, thought_signature := none
        model_used := some "gemini-2.0-flash", error := none }
  | .raises e =>
      { response := exceptionFallback, thought_signature := none
        model_used := none, error := some e }

def suggestionBucket (intent : String) : List String :=
  if intent = "transaction_analysis" then
    ["Break down my spending by category",
     "Were there any large, one-time expenses?",
     "How does my spending compare to my income?"]
  else if intent = "investment_overview" then
    ["Which investment has the highest return?",
     "What\x27s the risk level of my overall portfolio?",
     "Tell me more about my worst-performing asset."]
  else if intent = "recommendation" then
    ["Based on my risk profile, what should I buy next?",
     "I have ₹50,000 to invest, what do you suggest?",
     "How can I better align my portfolio with my goals?"]
  else if intent = "summary" then
    ["Give me a detailed financial health report.",
     "What are the top 3 insights from my data?",
     "Summarize my financial situation in one paragraph."]
  else
    ["Analyze my spending habits.",
     "Give me a deep dive into my investments.",
     "What\x27s one thing I could do better financially?"]

/-- `generate_follow_up_suggestions`: table lookup with a default bucket,
then `random.sample(suggestions, min(3, len(suggestions)))`; the random
sampling is an oracle parameter. -/
def generateFollowUpSuggestions (intent : String)
    (sample : List String → List String) : List String :=
  sample (suggestionBucket intent)

/-! ## Chat endpoint (`ChatAPIView.post`, `chatbot/views.py`) -/

structure ChatRequest where
  customer_id : Option String
  message : Option String
  conversation_id : Option String
deriving DecidableEq, Repr

inductive ChatResponse
  | validationError
  | notFound (error : String)
  | ok (conversation_id : String) (response : String) (intent : String)
       (suggestions : List String) (transaction_count investment_count : Nat)
  | serverError
deriving DecidableEq, Repr

def ChatResponse.statusCode : ChatResponse → Nat
  | .validationError => 400
  | .notFound _ => 404
  | .ok .. => 200
  | .serverError => 500

def ChatResponse.responseText : ChatResponse → Option String
  | .ok _ r .. => some r
  | _ => none

def ChatResponse.convId : ChatResponse → Option String
  | .ok c .. => some c
  | _ => none

/-- `ChatRequestSerializer`: `customer_id` and `message` are required,
non-blank `CharField`s; `conversation_id` is optional (may be null) but may
not be blank if supplied. -/
def validChatRequest (req : ChatRequest) : Bool :=
  match req.customer_id, req.message with
  | some cid, some msg => cid ≠ "" && msg ≠ "" && req.conversation_id ≠ some ""
  | _, _ => false

/-- `_create_new_conversation` plus the surrounding get-or-create logic
(views.py lines 95–105): reuse the conversation only if one exists with the
supplied key AND the request's customer; otherwise create a fresh one
(`str(uuid.uuid4())` is the `freshConvId` oracle). -/
def resolveConversation (store : Store) (cid : String)
    (reqConv : Option String) (freshConvId : String) (now : Nat) :
    ChatConversation × Store :=
  let mkNew : ChatConversation × Store :=
    let c : ChatConversation :=
      { conversation_id := freshConvId, customer_id := cid
        started_at := now, is_active := true }
    (c, { store with conversations := store.conversations ++ [c] })
  match reqConv with
  | some k =>
      if k ≠ "" then
        match store.conversations.find?
            (fun c => c.conversation_id == k && c.customer_id == cid) with
        | some c => (c, store)
        | none => mkNew
      else mkNew
  | none => mkNew

/-- `_get_conversation_history`: messages of the conversation ordered by
timestamp (ascending, stable). -/
def conversationHistory (store : Store) (conv : ChatConversation) : List ChatMessage :=
  stableSortBy (fun a b => a.timestamp ≤ b.timestamp)
    (store.messages.filter (fun m => m.conversation_id == conv.conversation_id))

/-- `ChatAPIView.post`.  Oracles: `today`/`now` for the clock,
`freshConvId` for `uuid.uuid4()`, `intentOutcome`/`genOutcome` for the two
external calls, `sample` for `random.sample`. -/
def chatPost (store : Store) (req : ChatRequest) (today : Int) (now : Nat)
    (freshConvId : String) (intentOutcome genOutcome : ServiceOutcome)
    (sample : List String → List String) : Store × ChatResponse :=
  if validChatRequest req = false then (store, .validationError)
  else
    match req.customer_id, req.message with
    | some cid, some userMessage =>
        match store.customers.find? (fun c => c.customer_id == cid) with
        | none => (store, .notFound "Customer not found")
        | some _customer =>
            let (conversation, store1) :=
              resolveConversation store cid req.conversation_id freshConvId now
            let userMsg : ChatMessage :=
              { conversation_id := conversation.conversation_id, role := "user"
                content := userMessage, timestamp := now, intent := none
                data_sources := [], thought_signature := none }
            let store2 := { store1 with messages := store1.messages ++ [userMsg] }
            let history := conversationHistory store2 conversation
            let intent := classifyIntent intentOutcome
            match getCustomerContext store2 today cid with
            | none => (store2, .serverError)
            | some contextData =>
                -- the previous thought signature feeds only the external call
                let _previousThought : Option String :=
                  if history.isEmpty then none
                  else (history.reverse.find? (fun m => m.role == "assistant")).bind
                    (fun m => m.thought_signature)
                let aiResponse := generateResponse genOutcome
                let assistantMsg : ChatMessage :=
                  { conversation_id := conversation.conversation_id
                    role := "assistant", content := aiResponse.response
                    timestamp := now + 1, intent := some intent
                    data_sources := ["transactions", "investments", "customer_profile"]
                    thought_signature := aiResponse.thought_signature }
                let store3 := { store2 with messages := store2.messages ++ [assistantMsg] }
                let suggestions := generateFollowUpSuggestions intent sample
                (store3,
                  .ok conversation.conversation_id aiResponse.response intent
                    suggestions contextData.transactions.length
                    contextData.investments.length)
    | _, _ => (store, .validationError)

/-! ## Bulk import (`process_uploaded_file`, `upload_file`, `chatbot/views.py`)

A parsed CSV is a list of rows; a row carries the required columns of its
schema and `Option` values for the columns `row.get(...)` defaults. -/

structure TxnRow where
  transaction_id : String
  date : Int
  category : String
  merchant : String
  amount : ℚ
  payment_method : Option String
  description : Option String
deriving DecidableEq, Repr

structure InvRow where
  investment_id : String
  product_type : String
  product_name : String
  purchase_date : Int
  invested_amount : ℚ
  current_value : ℚ
  units : Option ℚ
  purchase_nav : Option ℚ
  current_nav : Option ℚ
  returns_absolute : ℚ
  returns_percentage : ℚ
  risk_level : String
deriving DecidableEq, Repr

/-- The uploaded dataframe, parsed under one of the two supported schemas. -/
inductive UploadRows
  | transactionRows (rows : List TxnRow)
  | investmentRows (rows : List InvRow)
deriving Repr

/-- `Transaction.objects.get_or_create(transaction_id=..., defaults=...)`:
if a record with the key exists it is left untouched (the defaults are not
applied); otherwise a new record owned by `customer` is created, with
`payment_method` defaulting to `'upi'` and `description` to `''`. -/
def getOrCreateTxn (customer : String) (store : List Transaction) (row : TxnRow) :
    List Transaction :=
  if store.any (fun t => t.transaction_id == row.transaction_id) then store
  else
    store ++
      [{ transaction_id := row.transaction_id, customer_id := customer
         date := row.date, category := row.category, merchant := row.merchant
         amount := row.amount
         payment_method := row.payment_method.getD "upi"
         description := row.description.getD "" }]

/-- `Investment.objects.get_or_create(investment_id=..., defaults=...)`:
create-if-absent, with `units`/`purchase_nav`/`current_nav` defaulting to 0. -/
def getOrCreateInv (customer : String) (store : List Investment) (row : InvRow) :
    List Investment :=
  if store.any (fun i => i.investment_id == row.investment_id) then store
  else
    store ++
      [{ investment_id := row.investment_id, customer_id := customer
         product_type := row.product_type, product_name := row.product_name
         purchase_date := row.purchase_date
         invested_amount := row.invested_amount
         current_value := row.current_value
         units := row.units.getD 0
         purchase_nav := row.purchase_nav.getD 0
         current_nav := row.current_nav.getD 0
         returns_absolute := row.returns_absolute
         returns_percentage := row.returns_percentage
         risk_level := row.risk_level }]

/-- `process_uploaded_file`: for file type `'transaction'` or `'investment'`
loop over the rows, upserting each and incrementing `records_imported`; any
other file type takes neither branch and returns 0.  A dataframe parsed
under the wrong schema raises (`KeyError`), modelled by `Except.error`. -/
def processUploadedFile (fileType : String) (customer : String)
    (data : UploadRows) (store : Store) : Except String (Store × Nat) :=
  if fileType == "transaction" then
    match data with
    | .transactionRows rows =>
        let (txns, n) := rows.foldl
          (fun acc row => (getOrCreateTxn customer acc.1 row, acc.2 + 1))
          (store.transactions, 0)
        .ok ({ store with transactions := txns }, n)
    | .investmentRows _ => .error "KeyError"
  else if fileType == "investment" then
    match data with
    | .investmentRows rows =>
        let (invs, n) := rows.foldl
          (fun acc row => (getOrCreateInv customer acc.1 row, acc.2 + 1))
          (store.investments, 0)
        .ok ({ store with investments := invs }, n)
    | .transactionRows _ => .error "KeyError"
  else .ok (store, 0)

inductive UploadResponse
  | badRequest (error : String)
  | notFound (error : String)
  | created (records_imported : Nat)
  | serverError (error : String)
deriving DecidableEq, Repr

/-- `upload_file`: requires a file plus non-empty `file_type` and
`customer_id` form fields and an existing customer; persists an
`UploadedFile` metadata record (auto primary key = position counter), runs
`process_uploaded_file`, and on success marks the metadata processed with
the imported count and returns HTTP 201. -/
def uploadFile (store : Store) (filePresent : Bool) (fileName : String)
    (fileType customerId : Option String) (data : UploadRows) :
    Store × UploadResponse :=
  if !filePresent then (store, .badRequest "No file provided")
  else
    match fileType, customerId with
    | some ft, some cid =>
        if ft = "" || cid = "" then
          (store, .badRequest "file_type and customer_id are required")
        else
          match store.customers.find? (fun c => c.customer_id == cid) with
          | none => (store, .notFound "Customer not found")
          | some _customer =>
              let fid := store.uploadedFiles.length
              let meta : UploadedFileRec :=
                { id := fid, file_name := fileName, file_type := ft
                  uploaded_by := cid, processed := false, records_imported := 0 }
              let store1 := { store with uploadedFiles := store.uploadedFiles ++ [meta] }
              match processUploadedFile ft cid data store1 with
              | .ok (store2, n) =>
                  let store3 :=
                    { store2 with
                        uploadedFiles := store2.uploadedFiles.map
                          (fun r =>
                            if r.id = fid then
                              { r with processed := true, records_imported := n }
                            else r) }
                  (store3, .created n)
              | .error e => (store1, .serverError e)
    | _, _ => (store, .badRequest "file_type and customer_id are required")

end Chatbot

namespace Chatbot

/-! ## General lemmas -/

theorem roundHalfEven_dist (q : ℚ) : |((roundHalfEven q : ℤ) : ℚ) - q| ≤ 1/2 := by
  have h1 : ((⌊q⌋ : ℤ) : ℚ) ≤ q := Int.floor_le q
  have h2 : q < ⌊q⌋ + 1 := Int.lt_floor_add_one q
  unfold roundHalfEven
  rw [abs_le]
  constructor <;> split_ifs <;> push_cast <;> linarith

theorem round2_dist (x : ℚ) : |round2 x - x| ≤ 1/200 := by
  have h := roundHalfEven_dist (x * 100)
  unfold round2
  have e : ((roundHalfEven (x * 100) : ℤ) : ℚ) / 100 - x
      = (((roundHalfEven (x * 100) : ℤ) : ℚ) - x * 100) / 100 := by ring
  rw [e, abs_div]
  rw [show |(100 : ℚ)| = 100 from abs_of_pos (by norm_num)]
  linarith

theorem sum_map_div_mul (vs : List ℚ) (T : ℚ) :
    (vs.map (fun v => v / T * 100)).sum = vs.sum / T * 100 := by
  induction vs with
  | nil => simp
  | cons v vs ih => simp only [List.map_cons, List.sum_cons, ih]; ring

theorem sum_round2_close (ps : List ℚ) :
    |(ps.map round2).sum - ps.sum| ≤ (ps.length : ℚ) / 200 := by
  induction ps with
  | nil => simp
  | cons p ps ih =>
      have h := round2_dist p
      simp only [List.map_cons, List.sum_cons, List.length_cons]
      have e : round2 p + (ps.map round2).sum - (p + ps.sum)
          = (round2 p - p) + ((ps.map round2).sum - ps.sum) := by ring
      rw [e]
      have tri := abs_add (round2 p - p) ((ps.map round2).sum - ps.sum)
      push_cast
      linarith

theorem dictAdd_snd_sum (d : List (String × ℚ)) (k : String) (v : ℚ) :
    ((dictAdd d k v).map Prod.snd).sum = (d.map Prod.snd).sum + v := by
  induction d with
  | nil => simp [dictAdd]
  | cons p ps ih =>
      by_cases hk : (p.1 == k) = true
      · simp [dictAdd, hk]; ring
      · simp only [dictAdd, hk, Bool.false_eq_true, if_false, List.map_cons,
          List.sum_cons, ih]
        ring

theorem groupByType_snd_sum (invs : List Investment) :
    ((groupByType invs).map Prod.snd).sum = totalCurrentValue invs := by
  suffices h : ∀ d : List (String × ℚ),
      (((invs.foldl (fun d i => dictAdd d i.product_type i.current_value) d).map
        Prod.snd).sum) = (d.map Prod.snd).sum + totalCurrentValue invs by
    simpa [groupByType] using h []
  induction invs with
  | nil => intro d; simp [totalCurrentValue]
  | cons i is' ih =>
      intro d
      simp only [List.foldl_cons, ih, dictAdd_snd_sum, totalCurrentValue,
        List.map_cons, List.sum_cons]
      ring

theorem dictGet_dictSet (d : List (String × ℚ)) (k c : String) (v : ℚ) :
    dictGet (dictSet d k v) c = if c = k then v else dictGet d c := by
  induction d with
  | nil =>
      by_cases h : c = k
      · simp [dictSet, dictGet, h]
      · have h2 : k ≠ c := fun hh => h hh.symm
        simp [dictSet, dictGet, h, h2]
  | cons p ps ih =>
      by_cases hpk : p.1 = k
      · subst hpk
        by_cases hc : c = p.1
        · simp [dictSet, dictGet, hc]
        · have h2 : p.1 ≠ c := fun hh => hc hh.symm
          simp [dictSet, dictGet, hc, h2]
      · by_cases hc : c = p.1
        · subst hc
          simp [dictSet, dictGet, hpk]
        · have h2 : p.1 ≠ c := fun hh => hc hh.symm
          simp [dictSet, dictGet, hpk, ih, h2]

end Chatbot

namespace Chatbot

/-! ## Claim C1 — monthly average divisor -/

/-- C1 (counterexample): the monthly average is NOT total spend divided by
`max(1, days-span / 30)`.  For two transactions 15 days apart totalling 100,
the code divides by `15/30 = 1/2` (the `or 1` guard fires only at a span of
exactly 0), giving 200, while the claimed formula gives 100. -/
theorem monthly_average_claim_counterexample :
    (calcTransactionSummary
        [⟨"T1", "C1", 0, "food", "M", 100, "upi", ""⟩,
         ⟨"T2", "C1", 15, "food", "M", 0, "upi", ""⟩]).map
      (fun s => s.monthly_average) = some 200 ∧
    (calcTransactionSummary
        [⟨"T1", "C1", 0, "food", "M", 100, "upi", ""⟩,
         ⟨"T2", "C1", 15, "food", "M", 0, "upi", ""⟩]).map
      (fun s => s.total_spent /
        max 1 ((dateSpanDays
          [⟨"T1", "C1", 0, "food", "M", 100, "upi", ""⟩,
           ⟨"T2", "C1", 15, "food", "M", 0, "upi", ""⟩] : ℚ) / 30)) = some 100 ∧
    (200 : ℚ) ≠ 100 := by
  refine ⟨?_, ?_, by norm_num⟩ <;>
    norm_num [calcTransactionSummary, totalSpent, monthsCovered, dateSpanDays]

/-- C1 (amended): for every non-empty set of retrieved transactions the
monthly average equals total spend divided by the days-span over 30 when the
span is nonzero, and by 1 when the span is zero (all transactions on one
date, or a single transaction); the divisor is never zero, so there is no
division by zero — but the divisor is NOT clamped to 1 for nonzero spans
under 30 days. -/
theorem monthly_average_amended (txns : List Transaction) (h : txns ≠ []) :
    ∃ s, calcTransactionSummary txns = some s ∧
      monthsCovered txns ≠ 0 ∧
      (dateSpanDays txns = 0 → s.monthly_average = s.total_spent / 1) ∧
      (dateSpanDays txns ≠ 0 →
        s.monthly_average = s.total_spent / ((dateSpanDays txns : ℚ) / 30)) := by
  cases txns with
  | nil => exact absurd rfl h
  | cons t ts =>
    refine ⟨_, rfl, ?_, ?_, ?_⟩
    · unfold monthsCovered
      split
      · exact one_ne_zero
      · next hne => exact hne
    · intro hspan
      simp [calcTransactionSummary, monthsCovered, hspan]
    · intro hspan
      have hq : ((dateSpanDays (t :: ts) : ℚ) / 30) ≠ 0 := by
        rw [div_ne_zero_iff]
        exact ⟨Int.cast_ne_zero.mpr hspan, by norm_num⟩
      simp [calcTransactionSummary, monthsCovered, hq]

/-- C1 (witness): the amended statement applied to a concrete single
transaction, whose date span is 0. -/
theorem monthly_average_amended_witness :
    ([⟨"T1", "C1", 10, "food", "M", 100, "upi", ""⟩] : List Transaction) ≠ [] ∧
    (∃ s, calcTransactionSummary
        [⟨"T1", "C1", 10, "food", "M", 100, "upi", ""⟩] = some s ∧
      monthsCovered [⟨"T1", "C1", 10, "food", "M", 100, "upi", ""⟩] ≠ 0 ∧
      (dateSpanDays [⟨"T1", "C1", 10, "food", "M", 100, "upi", ""⟩] = 0 →
        s.monthly_average = s.total_spent / 1) ∧
      (dateSpanDays [⟨"T1", "C1", 10, "food", "M", 100, "upi", ""⟩] ≠ 0 →
        s.monthly_average = s.total_spent /
          ((dateSpanDays [⟨"T1", "C1", 10, "food", "M", 100, "upi", ""⟩] : ℚ) / 30))) :=
  ⟨by simp, monthly_average_amended _ (by simp)⟩

/-! ## Claim C2 — investment return percentage -/

/-- C2 (counterexample): `return_percentage` is NOT zero exactly when total
invested is zero: a single investment with 100 invested and current value
100 has `return_percentage = 0` while total invested is `100 ≠ 0`. -/
theorem return_percentage_claim_counterexample :
    (calcInvestmentSummary
        [⟨"I1", "C1", "mutual_fund", "Fund A", 0, 100, 100, 0, 0, 0, 0, 0, "low"⟩]).map
      (fun s => s.return_percentage) = some 0 ∧
    (calcInvestmentSummary
        [⟨"I1", "C1", "mutual_fund", "Fund A", 0, 100, 100, 0, 0, 0, 0, 0, "low"⟩]).map
      (fun s => s.total_invested) = some 100 ∧
    (100 : ℚ) ≠ 0 := by
  refine ⟨?_, ?_, by norm_num⟩ <;> norm_num [calcInvestmentSummary]

/-- C2 (amended): for every non-empty set of investments,
`return_percentage` is 0 whenever the total invested amount is ≤ 0 (in
particular when it is 0, so there is no division by zero), and equals
`(current − invested) / invested × 100` whenever the total invested amount
is positive (in which case it may still be 0 when current equals
invested). -/
theorem return_percentage_amended (invs : List Investment) (h : invs ≠ []) :
    ∃ s, calcInvestmentSummary invs = some s ∧
      (s.total_invested ≤ 0 → s.return_percentage = 0) ∧
      (0 < s.total_invested →
        s.return_percentage
          = (s.current_value - s.total_invested) / s.total_invested * 100) := by
  cases invs with
  | nil => exact absurd rfl h
  | cons i is' =>
    refine ⟨_, rfl, ?_, ?_⟩ <;> dsimp only <;> intro h1
    · rw [if_neg (not_lt.mpr h1)]
    · rw [if_pos h1]

/-- C2 (witness): the amended statement applied to a concrete one-element
investment set. -/
theorem return_percentage_amended_witness :
    ([⟨"I1", "C1", "stocks", "S", 0, 100, 150, 0, 0, 0, 50, 50, "high"⟩]
        : List Investment) ≠ [] ∧
    (∃ s, calcInvestmentSummary
        [⟨"I1", "C1", "stocks", "S", 0, 100, 150, 0, 0, 0, 50, 50, "high"⟩] = some s ∧
      (s.total_invested ≤ 0 → s.return_percentage = 0) ∧
      (0 < s.total_invested →
        s.return_percentage
          = (s.current_value - s.total_invested) / s.total_invested * 100)) :=
  ⟨by simp, return_percentage_amended _ (by simp)⟩

/-! ## Claim C3 — portfolio allocation percentages -/

/-- C3 (theorem): `get_portfolio_allocation`'s total is the sum of the
customer's current values; whenever that total is positive, each entry's
percentage is its group's share of the total rounded to 2 decimal places
and the percentages sum to 100 within the rounding tolerance (at most
1/200 per entry); when the total is 0, every percentage entry is 0. -/
theorem portfolio_allocation_correct (invs : List Investment) :
    (getPortfolioAllocation invs).1 = totalCurrentValue invs ∧
    (0 < totalCurrentValue invs →
      |(((getPortfolioAllocation invs).2.map (fun e => e.percentage)).sum) - 100|
          ≤ ((getPortfolioAllocation invs).2.length : ℚ) / 200 ∧
      ∀ e ∈ (getPortfolioAllocation invs).2,
        e.percentage = round2 (e.value / totalCurrentValue invs * 100)) ∧
    (totalCurrentValue invs = 0 →
      ∀ e ∈ (getPortfolioAllocation invs).2, e.percentage = 0) := by
  have hsum := groupByType_snd_sum invs
  set l := groupByType invs with hl
  set S : ℚ := (l.map Prod.snd).sum with hS
  have h1 : getPortfolioAllocation invs
      = (S, l.map (fun p =>
          { product_type := normalizeName p.1
            value := p.2
            percentage := if 0 < S then round2 (p.2 / S * 100) else 0 })) := rfl
  refine ⟨by rw [h1]; exact hsum, ?_, ?_⟩
  · intro hpos
    have hTpos : 0 < S := by rw [hsum]; exact hpos
    constructor
    · rw [h1]
      have e1 : ((l.map (fun p =>
            ({ product_type := normalizeName p.1, value := p.2,
               percentage := if 0 < S then round2 (p.2 / S * 100) else 0 }
               : AllocationEntry))).map (fun e => e.percentage))
          = ((l.map Prod.snd).map (fun v => v / S * 100)).map round2 := by
        simp only [List.map_map]
        apply List.map_congr_left
        intro p _
        simp [Function.comp, if_pos hTpos]
      have h2 := sum_round2_close ((l.map Prod.snd).map (fun v => v / S * 100))
      have h3 : (((l.map Prod.snd).map (fun v => v / S * 100)).sum) = 100 := by
        rw [sum_map_div_mul, ← hS, div_self (ne_of_gt hTpos)]; norm_num
      rw [h3] at h2
      simpa [e1] using h2
    · intro e he
      rw [h1] at he
      obtain ⟨p, hp, rfl⟩ := List.mem_map.mp he
      dsimp only
      rw [if_pos hTpos, hsum]
  · intro hzero
    have hSz : S = 0 := by rw [hsum, hzero]
    intro e he
    rw [h1] at he
    obtain ⟨p, hp, rfl⟩ := List.mem_map.mp he
    dsimp only
    rw [if_neg (by rw [hSz]; exact lt_irrefl 0)]

/-- Sample two-holding portfolio used by the allocation witness. -/
def samplePortfolio : List Investment :=
  [⟨"I1", "C1", "equity", "Equity Fund", 0, 50, 60, 0, 0, 0, 10, 20, "high"⟩,
   ⟨"I2", "C1", "debt", "Debt Fund", 0, 50, 40, 0, 0, 0, -10, -20, "low"⟩]

/-- C3 (witness): the positive-total part of the statement applied to a
concrete two-holding portfolio. -/
theorem portfolio_allocation_correct_witness :
    0 < totalCurrentValue samplePortfolio ∧
    (|(((getPortfolioAllocation samplePortfolio).2.map (fun e => e.percentage)).sum)
        - 100| ≤ ((getPortfolioAllocation samplePortfolio).2.length : ℚ) / 200 ∧
     ∀ e ∈ (getPortfolioAllocation samplePortfolio).2,
       e.percentage = round2 (e.value / totalCurrentValue samplePortfolio * 100)) := by
  have hpos : 0 < totalCurrentValue samplePortfolio := by
    norm_num [totalCurrentValue, samplePortfolio]
  exact ⟨hpos, (portfolio_allocation_correct samplePortfolio).2.1 hpos⟩

end Chatbot

namespace Chatbot

/-! ## Claim C9 — category breakdown: supporting lemmas -/

theorem categorySpending_get (txns : List Transaction) (c : String) :
    dictGet (categorySpending txns) c
      = ((txns.filter (fun t => t.category == c)).map (fun t => t.amount)).sum := by
  suffices h : ∀ d, dictGet (txns.foldl
      (fun d t => dictSet d t.category (dictGet d t.category + t.amount)) d) c
      = dictGet d c
        + ((txns.filter (fun t => t.category == c)).map (fun t => t.amount)).sum by
    simpa [categorySpending, dictGet] using h []
  induction txns with
  | nil => intro d; simp
  | cons t ts ih =>
      intro d
      rw [List.foldl_cons, ih]
      by_cases hc : t.category = c
      · have hbeq : (t.category == c) = true := beq_iff_eq.mpr hc
        rw [dictGet_dictSet]
        simp only [List.filter_cons, hbeq, if_true, List.map_cons, List.sum_cons]
        rw [if_pos hc.symm, hc]
        ring
      · have hbeq : (t.category == c) = false := beq_eq_false_iff_ne.mpr hc
        rw [dictGet_dictSet]
        simp only [List.filter_cons, hbeq, Bool.false_eq_true, if_false]
        rw [if_neg (fun hh : c = t.category => hc hh.symm)]

theorem dictKeys_dictSet (d : List (String × ℚ)) (k : String) (v : ℚ) :
    dictKeys (dictSet d k v)
      = if k ∈ dictKeys d then dictKeys d else dictKeys d ++ [k] := by
  induction d with
  | nil => simp [dictSet, dictKeys]
  | cons p ps ih =>
      simp only [dictKeys, List.map_cons, List.mem_cons] at ih ⊢
      by_cases hpk : p.1 = k
      · simp [dictSet, hpk]
      · have h2 : ¬ k = p.1 := fun hh => hpk hh.symm
        simp only [dictSet, beq_iff_eq, hpk, if_false, List.map_cons]
        rw [ih]
        by_cases hmem : k ∈ List.map Prod.fst ps
        · simp [hmem, h2]
        · simp [hmem, h2]

theorem mem_dictKeys_dictSet (d : List (String × ℚ)) (k c : String) (v : ℚ) :
    c ∈ dictKeys (dictSet d k v) ↔ c = k ∨ c ∈ dictKeys d := by
  rw [dictKeys_dictSet]
  by_cases hmem : k ∈ dictKeys d
  · rw [if_pos hmem]
    constructor
    · exact Or.inr
    · rintro (rfl | h)
      · exact hmem
      · exact h
  · rw [if_neg hmem]
    simp [or_comm]

theorem dictKeys_dictSet_nodup (d : List (String × ℚ)) (k : String) (v : ℚ)
    (h : (dictKeys d).Nodup) : (dictKeys (dictSet d k v)).Nodup := by
  rw [dictKeys_dictSet]
  by_cases hmem : k ∈ dictKeys d
  · rwa [if_pos hmem]
  · rw [if_neg hmem, List.nodup_append]
    refine ⟨h, List.nodup_singleton _, fun x hx hxk => ?_⟩
    simp only [List.mem_singleton] at hxk
    exact hmem (hxk ▸ hx)

theorem categorySpending_keys_nodup (txns : List Transaction) :
    (dictKeys (categorySpending txns)).Nodup := by
  suffices h : ∀ d, (dictKeys d).Nodup → (dictKeys (txns.foldl
      (fun d t => dictSet d t.category (dictGet d t.category + t.amount)) d)).Nodup by
    exact h [] (by simp [dictKeys])
  induction txns with
  | nil => intro d hd; exact hd
  | cons t ts ih =>
      intro d hd
      rw [List.foldl_cons]
      exact ih _ (dictKeys_dictSet_nodup _ _ _ hd)

theorem categorySpending_keys_from_aux (txns : List Transaction) (k : String) :
    ∀ d, k ∈ dictKeys (txns.foldl
        (fun d t => dictSet d t.category (dictGet d t.category + t.amount)) d)
      → k ∈ dictKeys d ∨ ∃ u ∈ txns, u.category = k := by
  induction txns with
  | nil => intro d hd; exact Or.inl hd
  | cons t ts ih =>
      intro d hd
      rw [List.foldl_cons] at hd
      rcases ih _ hd with h0 | h1
      · rcases (mem_dictKeys_dictSet _ _ _ _).mp h0 with rfl | h2
        · exact Or.inr ⟨t, List.mem_cons_self _ _, rfl⟩
        · exact Or.inl h2
      · obtain ⟨u, hu, huk⟩ := h1
        exact Or.inr ⟨u, List.mem_cons_of_mem _ hu, huk⟩

theorem categorySpending_keys_from (txns : List Transaction) (k : String)
    (hk : k ∈ dictKeys (categorySpending txns)) : ∃ u ∈ txns, u.category = k := by
  rcases categorySpending_keys_from_aux txns k [] hk with h0 | h1
  · simp [dictKeys] at h0
  · exact h1

theorem categorySpending_keys_present_aux (txns : List Transaction) (t : Transaction) :
    ∀ d, (t.category ∈ dictKeys d ∨ t ∈ txns) →
      t.category ∈ dictKeys (txns.foldl
        (fun d t => dictSet d t.category (dictGet d t.category + t.amount)) d) := by
  induction txns with
  | nil =>
      intro d hd
      rcases hd with h0 | h0
      · exact h0
      · simp at h0
  | cons u us ih =>
      intro d hd
      rw [List.foldl_cons]
      apply ih
      rcases hd with h0 | h0
      · exact Or.inl ((mem_dictKeys_dictSet _ _ _ _).mpr (Or.inr h0))
      · rcases List.mem_cons.mp h0 with rfl | h1
        · exact Or.inl ((mem_dictKeys_dictSet _ _ _ _).mpr (Or.inl rfl))
        · exact Or.inr h1

theorem categorySpending_keys_present (txns : List Transaction) (t : Transaction)
    (ht : t ∈ txns) : t.category ∈ dictKeys (categorySpending txns) :=
  categorySpending_keys_present_aux txns t [] (Or.inr ht)

end Chatbot

namespace Chatbot

theorem dictSet_fresh (d : List (String × ℚ)) (k : String) (v : ℚ)
    (h : k ∉ dictKeys d) : dictSet d k v = d ++ [(k, v)] := by
  induction d with
  | nil => simp [dictSet]
  | cons p ps ih =>
      simp only [dictKeys, List.map_cons, List.mem_cons, not_or] at h
      have hne : (p.1 == k) = false := beq_eq_false_iff_ne.mpr (fun hh => h.1 hh.symm)
      simp only [dictSet, hne, Bool.false_eq_true, if_false, List.cons_append,
        List.cons.injEq, true_and]
      exact ih (by simpa [dictKeys] using h.2)

theorem breakdown_foldl_eq_map (spending : List (String × ℚ)) :
    ∀ d, ((spending.map (fun p => normalizeName p.1)).Nodup) →
      (∀ p ∈ spending, normalizeName p.1 ∉ dictKeys d) →
      spending.foldl (fun d p => dictSet d (normalizeName p.1) p.2) d
        = d ++ spending.map (fun p => (normalizeName p.1, p.2)) := by
  induction spending with
  | nil => intro d _ _; simp
  | cons p ps ih =>
      intro d hnod hfresh
      simp only [List.map_cons, List.nodup_cons] at hnod
      rw [List.foldl_cons,
        dictSet_fresh d _ _ (hfresh p (List.mem_cons_self _ _)),
        ih _ hnod.2 ?_]
      · simp
      · intro q hq
        have h1 := hfresh q (List.mem_cons_of_mem _ hq)
        have h2 : normalizeName q.1 ≠ normalizeName p.1 := by
          intro he
          exact hnod.1 (he ▸ List.mem_map_of_mem (fun p => normalizeName p.1) hq)
        simp only [dictKeys, List.map_append, List.map_cons, List.map_nil,
          List.mem_append, List.mem_singleton, not_or]
        exact ⟨by simpa [dictKeys] using h1, h2⟩

theorem dictGet_map_norm (spending : List (String × ℚ)) (c : String)
    (hinj : ∀ k1 ∈ dictKeys spending, ∀ k2 ∈ dictKeys spending,
      normalizeName k1 = normalizeName k2 → k1 = k2)
    (hc : c ∈ dictKeys spending) :
    dictGet (spending.map (fun p => (normalizeName p.1, p.2))) (normalizeName c)
      = dictGet spending c := by
  induction spending with
  | nil => simp [dictKeys] at hc
  | cons p ps ih =>
      by_cases hpc : p.1 = c
      · simp [dictGet, hpc]
      · have hmemp : p.1 ∈ dictKeys (p :: ps) := by simp [dictKeys]
        have h2 : normalizeName p.1 ≠ normalizeName c := fun he =>
          hpc (hinj p.1 hmemp c hc he)
        have hc' : c ∈ dictKeys ps := by
          rcases (by simpa [dictKeys] using hc : c = p.1 ∨ c ∈ List.map Prod.fst ps)
            with rfl | h
          · exact absurd rfl hpc
          · simpa [dictKeys] using h
        have hinj' : ∀ k1 ∈ dictKeys ps, ∀ k2 ∈ dictKeys ps,
            normalizeName k1 = normalizeName k2 → k1 = k2 := by
          intro k1 h1 k2 h3 he
          refine hinj k1 ?_ k2 ?_ he <;> simp [dictKeys] at h1 h3 ⊢ <;> tauto
        have hb1 : (normalizeName p.1 == normalizeName c) = false :=
          beq_eq_false_iff_ne.mpr h2
        have hb2 : (p.1 == c) = false := beq_eq_false_iff_ne.mpr hpc
        simp only [List.map_cons, dictGet, hb1, hb2, Bool.false_eq_true, if_false]
        exact ih hinj' hc'

/-- C9 (amended): for every non-empty transaction set in which distinct raw
categories have distinct normalized names, the category breakdown maps each
normalized category name to the sum of amounts of all retrieved transactions
whose category normalizes to that name.  (Without the injectivity proviso the
dict comprehension overwrites colliding normalized keys — see the
counterexample.) -/
theorem category_breakdown_amended (txns : List Transaction) (t : Transaction)
    (hmem : t ∈ txns)
    (hinj : ∀ t1 ∈ txns, ∀ t2 ∈ txns,
      normalizeName t1.category = normalizeName t2.category →
        t1.category = t2.category) :
    ∃ s, calcTransactionSummary txns = some s ∧
      dictGet s.category_breakdown (normalizeName t.category)
        = ((txns.filter (fun u =>
            normalizeName u.category == normalizeName t.category)).map
            (fun u => u.amount)).sum := by
  have hkeysInj : ∀ k1 ∈ dictKeys (categorySpending txns),
      ∀ k2 ∈ dictKeys (categorySpending txns),
      normalizeName k1 = normalizeName k2 → k1 = k2 := by
    intro k1 h1 k2 h2 he
    obtain ⟨u1, hu1, rfl⟩ := categorySpending_keys_from txns k1 h1
    obtain ⟨u2, hu2, rfl⟩ := categorySpending_keys_from txns k2 h2
    exact hinj u1 hu1 u2 hu2 he
  have hnodNorm : ((categorySpending txns).map
      (fun p => normalizeName p.1)).Nodup := by
    have h1 : ((dictKeys (categorySpending txns)).map normalizeName).Nodup :=
      List.Nodup.map_on hkeysInj (categorySpending_keys_nodup txns)
    simpa [dictKeys, List.map_map, Function.comp] using h1
  have hbreak : categoryBreakdown (categorySpending txns)
      = (categorySpending txns).map (fun p => (normalizeName p.1, p.2)) := by
    have := breakdown_foldl_eq_map (categorySpending txns) [] hnodNorm
      (by intro p _; simp [dictKeys])
    simpa [categoryBreakdown] using this
  have hget : dictGet (categoryBreakdown (categorySpending txns))
      (normalizeName t.category) = dictGet (categorySpending txns) t.category := by
    rw [hbreak]
    exact dictGet_map_norm _ _ hkeysInj (categorySpending_keys_present txns t hmem)
  have hfilter : txns.filter (fun u =>
        normalizeName u.category == normalizeName t.category)
      = txns.filter (fun u => u.category == t.category) := by
    apply List.filter_congr
    intro u hu
    by_cases h : u.category = t.category
    · simp [h]
    · have h2 : normalizeName u.category ≠ normalizeName t.category := fun he =>
        h (hinj u hu t hmem he)
      simp [h, h2]
  cases txns with
  | nil => simp at hmem
  | cons t0 ts =>
      refine ⟨_, rfl, ?_⟩
      dsimp only
      rw [hget, hfilter, categorySpending_get]

end Chatbot

namespace Chatbot

/-- C9 (counterexample): the breakdown does NOT map each normalized name to
the sum over all transactions normalizing to it.  With categories
`"food_dining"` (amount 100) and `"Food Dining"` (amount 50), both
normalizing to `"Food Dining"`, the comprehension overwrites and the
breakdown reports 50, not 150. -/
theorem category_breakdown_claim_counterexample :
    (calcTransactionSummary
        [⟨"T1", "C1", 0, "food_dining", "M", 100, "upi", ""⟩,
         ⟨"T2", "C1", 0, "Food Dining", "M", 50, "upi", ""⟩]).map
      (fun s => dictGet s.category_breakdown "Food Dining") = some 50 ∧
    ((([⟨"T1", "C1", 0, "food_dining", "M", 100, "upi", ""⟩,
        ⟨"T2", "C1", 0, "Food Dining", "M", 50, "upi", ""⟩]
         : List Transaction).filter
       (fun u => normalizeName u.category == "Food Dining")).map
       (fun u => u.amount)).sum = 150 ∧
    (50 : ℚ) ≠ 150 := by
  have h1 : normalizeName "food_dining" = "Food Dining" := by decide
  have h2 : normalizeName "Food Dining" = "Food Dining" := by decide
  have h3 : ("food_dining" : String) ≠ "Food Dining" := by decide
  refine ⟨?_, ?_, by norm_num⟩
  · norm_num [calcTransactionSummary, categorySpending, categoryBreakdown,
      dictSet, dictGet, h1, h2, h3]
  · norm_num [h1, h2]

/-- C9 (witness): the amended statement applied to a one-transaction set,
where normalization is trivially injective. -/
theorem category_breakdown_amended_witness :
    (⟨"T1", "C1", 0, "food", "M", 100, "upi", ""⟩ : Transaction) ∈
      ([⟨"T1", "C1", 0, "food", "M", 100, "upi", ""⟩] : List Transaction) ∧
    (∃ s, calcTransactionSummary
        [⟨"T1", "C1", 0, "food", "M", 100, "upi", ""⟩] = some s ∧
      dictGet s.category_breakdown (normalizeName "food")
        = ((([⟨"T1", "C1", 0, "food", "M", 100, "upi", ""⟩]
            : List Transaction).filter
            (fun u => normalizeName u.category == normalizeName "food")).map
            (fun u => u.amount)).sum) :=
  ⟨List.mem_singleton_self _,
   category_breakdown_amended _ _ (List.mem_singleton_self _) (by simp)⟩

end Chatbot

namespace Chatbot

/-! ## Chat endpoint: supporting lemmas -/

theorem resolveConversation_store (store : Store) (cid : String)
    (rc : Option String) (f : String) (now : Nat) :
    (resolveConversation store cid rc f now).2.customers = store.customers ∧
    (resolveConversation store cid rc f now).2.transactions = store.transactions ∧
    (resolveConversation store cid rc f now).2.investments = store.investments ∧
    (resolveConversation store cid rc f now).2.messages = store.messages := by
  unfold resolveConversation
  cases rc with
  | none => exact ⟨rfl, rfl, rfl, rfl⟩
  | some k =>
      by_cases hk : k = ""
      · simp [hk]
      · cases hfind : store.conversations.find?
            (fun c => c.conversation_id == k && c.customer_id == cid) with
        | none => simp [hk, hfind]
        | some c => simp [hk, hfind]

end Chatbot

namespace Chatbot

theorem resolveConversation_create (store : Store) (cid k f : String) (now : Nat)
    (hk : k ≠ "")
    (hnone : store.conversations.find?
      (fun c => c.conversation_id == k && c.customer_id == cid) = none) :
    resolveConversation store cid (some k) f now
      = ({ conversation_id := f, customer_id := cid, started_at := now,
           is_active := true },
         { store with conversations := store.conversations ++
             [{ conversation_id := f, customer_id := cid, started_at := now,
                is_active := true }] }) := by
  unfold resolveConversation
  simp [hk, hnone]

theorem getCustomerContext_some (store : Store) (today : Int) (cid : String)
    (cust : Customer)
    (hcust : store.customers.find? (fun c => c.customer_id == cid) = some cust) :
    getCustomerContext store today cid
      = some (buildCustomerContext store today cust) := by
  unfold getCustomerContext
  rw [hcust]

theorem chatPost_run (store : Store) (req : ChatRequest) (today : Int) (now : Nat)
    (f : String) (io go : ServiceOutcome) (sample : List String → List String)
    (cid msg : String) (cust : Customer) (conv : ChatConversation) (store1 : Store)
    (hcid : req.customer_id = some cid) (hmsg : req.message = some msg)
    (h1 : cid ≠ "") (h2 : msg ≠ "") (h3 : req.conversation_id ≠ some "")
    (hcust : store.customers.find? (fun c => c.customer_id == cid) = some cust)
    (hres : resolveConversation store cid req.conversation_id f now = (conv, store1)) :
    chatPost store req today now f io go sample
      = ({ store1 with messages := store1.messages ++
            [{ conversation_id := conv.conversation_id, role := "user",
               content := msg, timestamp := now, intent := none,
               data_sources := [], thought_signature := none },
             { conversation_id := conv.conversation_id, role := "assistant",
               content := (generateResponse go).response, timestamp := now + 1,
               intent := some (classifyIntent io),
               data_sources := ["transactions", "investments", "customer_profile"],
               thought_signature := (generateResponse go).thought_signature }] },
         .ok conv.conversation_id (generateResponse go).response (classifyIntent io)
           (generateFollowUpSuggestions (classifyIntent io) sample)
           (buildCustomerContext store today cust).transactions.length
           (buildCustomerContext store today cust).investments.length) := by
  obtain ⟨hc1, ht1, hi1, hm1⟩ := resolveConversation_store store cid
    req.conversation_id f now
  rw [hres] at hc1 ht1 hi1 hm1
  dsimp only at hc1 ht1 hi1 hm1
  have hval : validChatRequest req = true := by
    unfold validChatRequest
    rw [hcid, hmsg]
    simp [h1, h2, h3]
  have hcust2 : store.customers.find? (fun c => c.customer_id == cid)
      = some cust := hcust
  unfold chatPost
  rw [hval]
  simp only [Bool.true_eq_false, if_false]
  rw [hcid, hmsg]
  simp only []
  rw [hcust]
  simp only [hres]
  have hctx : getCustomerContext
      { store1 with messages := store1.messages ++
          [{ conversation_id := conv.conversation_id, role := "user",
             content := msg, timestamp := now, intent := none,
             data_sources := [], thought_signature := none }] } today cid
      = some (buildCustomerContext store today cust) := by
    unfold getCustomerContext buildCustomerContext
    simp only [hc1, ht1, hi1]
    rw [hcust]
  rw [hctx]
  simp [List.append_assoc]

end Chatbot

namespace Chatbot

/-! ## Claim C6 — unknown customer -/

/-- C6: a chat request whose `customer_id` matches no stored customer gets
the not-found error and the store is returned unchanged — no conversation
is created and no message is persisted. -/
theorem chat_unknown_customer (store : Store) (req : ChatRequest) (today : Int)
    (now : Nat) (f : String) (io go : ServiceOutcome)
    (sample : List String → List String) (cid msg : String)
    (hcid : req.customer_id = some cid) (hmsg : req.message = some msg)
    (h1 : cid ≠ "") (h2 : msg ≠ "") (h3 : req.conversation_id ≠ some "")
    (hunknown : ∀ c ∈ store.customers, c.customer_id ≠ cid) :
    chatPost store req today now f io go sample
      = (store, .notFound "Customer not found") := by
  have hval : validChatRequest req = true := by
    unfold validChatRequest
    rw [hcid, hmsg]
    simp [h1, h2, h3]
  have hnone : store.customers.find? (fun c => c.customer_id == cid) = none := by
    apply List.find?_eq_none.mpr
    intro c hc hp
    exact hunknown c hc (beq_iff_eq.mp hp)
  unfold chatPost
  rw [hval]
  simp only [Bool.true_eq_false, if_false]
  rw [hcid, hmsg]
  simp only []
  rw [hnone]

/-- C6 (witness): the statement applied to an empty store and a concrete
request. -/
theorem chat_unknown_customer_witness :
    (∀ c ∈ (⟨[], [], [], [], [], []⟩ : Store).customers, c.customer_id ≠ "C9") ∧
    chatPost ⟨[], [], [], [], [], []⟩ ⟨some "C9", some "hi", none⟩ 0 0 "f"
        .emptyParts .emptyParts (fun l => l)
      = (⟨[], [], [], [], [], []⟩, .notFound "Customer not found") :=
  ⟨by simp, chat_unknown_customer _ _ _ _ _ _ _ _ "C9" "hi" rfl rfl
    (by decide) (by decide) (by simp) (by simp)⟩

/-! ## Claim C5 — conversation of another customer is never reused -/

/-- C5: if the supplied conversation key exists but belongs to a different
customer, the request never reuses it: a new conversation with the fresh
unique key, owned by the request's customer, is created, the response
carries the fresh key, and no message is appended to the other customer's
conversation. -/
theorem conversation_not_reused (store : Store) (req : ChatRequest) (today : Int)
    (now : Nat) (f : String) (io go : ServiceOutcome)
    (sample : List String → List String) (cid msg k : String) (cust : Customer)
    (hcid : req.customer_id = some cid) (hmsg : req.message = some msg)
    (h1 : cid ≠ "") (h2 : msg ≠ "") (hconv : req.conversation_id = some k)
    (hk : k ≠ "")
    (hcust : store.customers.find? (fun c => c.customer_id == cid) = some cust)
    (howner : ∀ c ∈ store.conversations, c.conversation_id = k → c.customer_id ≠ cid)
    (hexists : ∃ c ∈ store.conversations, c.conversation_id = k)
    (hfresh : ∀ c ∈ store.conversations, c.conversation_id ≠ f) :
    ∃ store' resp,
      chatPost store req today now f io go sample = (store', resp) ∧
      resp.convId = some f ∧
      f ≠ k ∧
      store'.conversations = store.conversations ++
        [{ conversation_id := f, customer_id := cid, started_at := now,
           is_active := true }] ∧
      store'.messages.filter (fun m => m.conversation_id == k)
        = store.messages.filter (fun m => m.conversation_id == k) := by
  have hfk : f ≠ k := by
    obtain ⟨c0, hc0, hid0⟩ := hexists
    intro hfkeq
    exact hfresh c0 hc0 (hid0.trans hfkeq.symm)
  have h3 : req.conversation_id ≠ some "" := by
    rw [hconv]
    simp [hk]
  have hnone : store.conversations.find?
      (fun c => c.conversation_id == k && c.customer_id == cid) = none := by
    apply List.find?_eq_none.mpr
    intro c hc hp
    rw [Bool.and_eq_true, beq_iff_eq, beq_iff_eq] at hp
    exact howner c hc hp.1 hp.2
  have hres : resolveConversation store cid req.conversation_id f now
      = ({ conversation_id := f, customer_id := cid, started_at := now,
           is_active := true },
         { store with conversations := store.conversations ++
             [{ conversation_id := f, customer_id := cid, started_at := now,
                is_active := true }] }) := by
    rw [hconv]
    exact resolveConversation_create store cid k f now hk hnone
  have hrun := chatPost_run store req today now f io go sample cid msg cust _ _
    hcid hmsg h1 h2 h3 hcust hres
  refine ⟨_, _, hrun, rfl, hfk, rfl, ?_⟩
  have hbeq : (f == k) = false := beq_eq_false_iff_ne.mpr hfk
  dsimp only
  rw [List.filter_append]
  simp [hbeq]

/-! ## Claim C7 — generation failure fallback -/

/-- C7 (counterexample): there is no single fixed fallback message for both
failure modes: with the same store and request, a thrown generation call
yields the "technical glitch" text while an empty-parts result yields the
"having trouble" text, and the two texts differ. -/
theorem generation_fallback_claim_counterexample :
    (chatPost ⟨[⟨"C1", "Asha", 30, "low", 0, "g", 0, "e", "p"⟩], [], [], [], [], []⟩
        ⟨some "C1", some "hi", none⟩ 0 0 "conv-1" .emptyParts (.raises "boom")
        (fun l => l)).2.responseText = some exceptionFallback ∧
    (chatPost ⟨[⟨"C1", "Asha", 30, "low", 0, "g", 0, "e", "p"⟩], [], [], [], [], []⟩
        ⟨some "C1", some "hi", none⟩ 0 0 "conv-1" .emptyParts .emptyParts
        (fun l => l)).2.responseText = some emptyPartsFallback ∧
    exceptionFallback ≠ emptyPartsFallback := by
  have hcust : (⟨[⟨"C1", "Asha", 30, "low", 0, "g", 0, "e", "p"⟩], [], [], [], [],
      []⟩ : Store).customers.find? (fun c => c.customer_id == "C1")
      = some ⟨"C1", "Asha", 30, "low", 0, "g", 0, "e", "p"⟩ := rfl
  have hrun1 := chatPost_run _ ⟨some "C1", some "hi", none⟩ 0 0 "conv-1"
    .emptyParts (.raises "boom") (fun l => l) "C1" "hi" _ _ _ rfl rfl
    (by decide) (by decide) (by simp) hcust rfl
  have hrun2 := chatPost_run _ ⟨some "C1", some "hi", none⟩ 0 0 "conv-1"
    .emptyParts .emptyParts (fun l => l) "C1" "hi" _ _ _ rfl rfl
    (by decide) (by decide) (by simp) hcust rfl
  rw [hrun1, hrun2]
  exact ⟨rfl, rfl, by decide⟩

/-- C7 (amended): when the external generation call throws or returns empty
output, the chat endpoint still returns HTTP 200, its response text is the
fixed apologetic fallback message of that failure mode (one fixed text for
exceptions, another for empty output), and an assistant message carrying
that same text is persisted to the returned conversation. -/
theorem generation_failure_fallback (store : Store) (req : ChatRequest)
    (today : Int) (now : Nat) (f : String) (io go : ServiceOutcome)
    (sample : List String → List String) (cid msg : String) (cust : Customer)
    (hcid : req.customer_id = some cid) (hmsg : req.message = some msg)
    (h1 : cid ≠ "") (h2 : msg ≠ "") (h3 : req.conversation_id ≠ some "")
    (hcust : store.customers.find? (fun c => c.customer_id == cid) = some cust) :
    (chatPost store req today now f io go sample).2.statusCode = 200 ∧
    (chatPost store req today now f io go sample).2.responseText
      = some (generateResponse go).response ∧
    (∀ e, go = .raises e → (generateResponse go).response = exceptionFallback) ∧
    (go = .emptyParts → (generateResponse go).response = emptyPartsFallback) ∧
    ((chatPost store req today now f io go sample).1.messages.getLast?).map
        (fun m => (m.role, m.content, some m.conversation_id))
      = some ("assistant", (generateResponse go).response,
          (chatPost store req today now f io go sample).2.convId) := by
  obtain ⟨conv, store1, hres⟩ :
      ∃ conv store1, resolveConversation store cid req.conversation_id f now
        = (conv, store1) := ⟨_, _, rfl⟩
  have hrun := chatPost_run store req today now f io go sample cid msg cust conv
    store1 hcid hmsg h1 h2 h3 hcust hres
  rw [hrun]
  refine ⟨rfl, rfl, ?_, ?_, ?_⟩
  · rintro e rfl
    rfl
  · rintro rfl
    rfl
  · dsimp only
    rw [show ∀ u a : ChatMessage, store1.messages ++ [u, a]
        = (store1.messages ++ [u]) ++ [a] from fun u a => by simp]
    rw [List.getLast?_concat]
    rfl

/-- C7 (witness): the amended statement applied to a concrete store, request
and a throwing generation outcome. -/
theorem generation_failure_fallback_witness :
    ((⟨[⟨"C1", "Asha", 30, "low", 0, "g", 0, "e", "p"⟩], [], [], [], [],
        []⟩ : Store).customers.find? (fun c => c.customer_id == "C1")
      = some ⟨"C1", "Asha", 30, "low", 0, "g", 0, "e", "p"⟩) ∧
    ((chatPost ⟨[⟨"C1", "Asha", 30, "low", 0, "g", 0, "e", "p"⟩], [], [], [], [], []⟩
        ⟨some "C1", some "hi", none⟩ 0 0 "conv-1" .emptyParts (.raises "boom")
        (fun l => l)).2.statusCode = 200 ∧
     (chatPost ⟨[⟨"C1", "Asha", 30, "low", 0, "g", 0, "e", "p"⟩], [], [], [], [], []⟩
        ⟨some "C1", some "hi", none⟩ 0 0 "conv-1" .emptyParts (.raises "boom")
        (fun l => l)).2.responseText
        = some (generateResponse (.raises "boom")).response ∧
     (∀ e, (.raises "boom" : ServiceOutcome) = .raises e →
        (generateResponse (.raises "boom")).response = exceptionFallback) ∧
     ((.raises "boom" : ServiceOutcome) = .emptyParts →
        (generateResponse (.raises "boom")).response = emptyPartsFallback) ∧
     ((chatPost ⟨[⟨"C1", "Asha", 30, "low", 0, "g", 0, "e", "p"⟩], [], [], [], [], []⟩
        ⟨some "C1", some "hi", none⟩ 0 0 "conv-1" .emptyParts (.raises "boom")
        (fun l => l)).1.messages.getLast?).map
          (fun m => (m.role, m.content, some m.conversation_id))
        = some ("assistant", (generateResponse (.raises "boom")).response,
            (chatPost ⟨[⟨"C1", "Asha", 30, "low", 0, "g", 0, "e", "p"⟩], [], [], [], [], []⟩
              ⟨some "C1", some "hi", none⟩ 0 0 "conv-1" .emptyParts (.raises "boom")
              (fun l => l)).2.convId)) :=
  ⟨rfl, generation_failure_fallback _ _ _ _ _ _ _ _ "C1" "hi"
    ⟨"C1", "Asha", 30, "low", 0, "g", 0, "e", "p"⟩ rfl rfl
    (by decide) (by decide) (by simp) rfl⟩

/-! ## Claim C8 — intent classification -/

/-- C8 (counterexample): on a successful external call, `classify_intent`
returns the model's trimmed lower-cased text verbatim, which need not be
one of the five intent labels. -/
theorem classify_intent_claim_counterexample :
    classifyIntent (.ok "banana") = "banana" ∧ "banana" ∉ intentLabels := by
  exact ⟨rfl, by decide⟩

/-- C8 (amended): `classify_intent` never propagates an error (it is a total
function of the call outcome): it returns `general_query` (one of the five
labels) on an exception or empty output, and on success returns the model
text trimmed and lower-cased — which lies in the five-label set exactly
when the service answered with one of the labels. -/
theorem classify_intent_amended :
    (∀ e, classifyIntent (.raises e) = "general_query") ∧
    classifyIntent .emptyParts = "general_query" ∧
    ("general_query" : String) ∈ intentLabels ∧
    (∀ t, classifyIntent (.ok t) = pyLower (pyStrip t)) ∧
    (∀ t, pyLower (pyStrip t) ∈ intentLabels →
      classifyIntent (.ok t) ∈ intentLabels) :=
  ⟨fun _ => rfl, rfl, by decide, fun _ => rfl, fun _ h => h⟩

/-- C8 (witness): the success case of the amended statement applied to a
concrete model answer that does normalize to a label. -/
theorem classify_intent_amended_witness :
    pyLower (pyStrip "  Summary ") ∈ intentLabels ∧
    classifyIntent (.ok "  Summary ") ∈ intentLabels :=
  ⟨by decide, classify_intent_amended.2.2.2.2 "  Summary " (by decide)⟩

end Chatbot

namespace Chatbot

/-- C5 (witness): the statement applied to a concrete store holding customer
`C1` and a conversation `conv-a` owned by the different customer `C2`. -/
theorem conversation_not_reused_witness :
    (∀ c ∈ (⟨[⟨"C1", "Asha", 30, "low", 0, "g", 0, "e", "p"⟩], [], [],
        [⟨"conv-a", "C2", 0, true⟩], [], []⟩ : Store).conversations,
      c.conversation_id = "conv-a" → c.customer_id ≠ "C1") ∧
    (∃ c ∈ (⟨[⟨"C1", "Asha", 30, "low", 0, "g", 0, "e", "p"⟩], [], [],
        [⟨"conv-a", "C2", 0, true⟩], [], []⟩ : Store).conversations,
      c.conversation_id = "conv-a") ∧
    (∀ c ∈ (⟨[⟨"C1", "Asha", 30, "low", 0, "g", 0, "e", "p"⟩], [], [],
        [⟨"conv-a", "C2", 0, true⟩], [], []⟩ : Store).conversations,
      c.conversation_id ≠ "conv-b") ∧
    (∃ store' resp,
      chatPost ⟨[⟨"C1", "Asha", 30, "low", 0, "g", 0, "e", "p"⟩], [], [],
          [⟨"conv-a", "C2", 0, true⟩], [], []⟩
        ⟨some "C1", some "hi", some "conv-a"⟩ 0 0 "conv-b" .emptyParts
        .emptyParts (fun l => l) = (store', resp) ∧
      resp.convId = some "conv-b" ∧
      ("conv-b" : String) ≠ "conv-a" ∧
      store'.conversations = (⟨[⟨"C1", "Asha", 30, "low", 0, "g", 0, "e", "p"⟩],
          [], [], [⟨"conv-a", "C2", 0, true⟩], [], []⟩ : Store).conversations ++
        [{ conversation_id := "conv-b", customer_id := "C1", started_at := 0,
           is_active := true }] ∧
      store'.messages.filter (fun m => m.conversation_id == "conv-a")
        = (⟨[⟨"C1", "Asha", 30, "low", 0, "g", 0, "e", "p"⟩], [], [],
            [⟨"conv-a", "C2", 0, true⟩], [], []⟩ : Store).messages.filter
            (fun m => m.conversation_id == "conv-a")) :=
  ⟨by decide, ⟨⟨"conv-a", "C2", 0, true⟩, by simp, rfl⟩, by decide,
   conversation_not_reused _ _ _ _ _ _ _ _ "C1" "hi" "conv-a"
     ⟨"C1", "Asha", 30, "low", 0, "g", 0, "e", "p"⟩ rfl rfl (by decide) (by decide)
     rfl (by decide) rfl (by decide)
     ⟨⟨"conv-a", "C2", 0, true⟩, by simp, rfl⟩ (by decide)⟩

end Chatbot

namespace Chatbot

/-! ## Claim C4 — bulk import: supporting lemmas -/

theorem foldl_getOrCreateTxn_count (customer : String) (rows : List TxnRow)
    (s : List Transaction) (n : Nat) :
    rows.foldl (fun acc row => (getOrCreateTxn customer acc.1 row, acc.2 + 1)) (s, n)
      = (rows.foldl (fun s row => getOrCreateTxn customer s row) s,
         n + rows.length) := by
  induction rows generalizing s n with
  | nil => simp
  | cons r rs ih =>
      rw [List.foldl_cons, List.foldl_cons, ih, List.length_cons]
      refine congrArg _ ?_
      omega

theorem foldl_getOrCreateInv_count (customer : String) (rows : List InvRow)
    (s : List Investment) (n : Nat) :
    rows.foldl (fun acc row => (getOrCreateInv customer acc.1 row, acc.2 + 1)) (s, n)
      = (rows.foldl (fun s row => getOrCreateInv customer s row) s,
         n + rows.length) := by
  induction rows generalizing s n with
  | nil => simp
  | cons r rs ih =>
      rw [List.foldl_cons, List.foldl_cons, ih, List.length_cons]
      refine congrArg _ ?_
      omega

theorem getOrCreateTxn_preserves (c : String) (s : List Transaction) (row : TxnRow)
    (key : String) (rec : Transaction)
    (h : s.find? (fun t => t.transaction_id == key) = some rec) :
    (getOrCreateTxn c s row).find? (fun t => t.transaction_id == key) = some rec := by
  unfold getOrCreateTxn
  split
  · exact h
  · rw [List.find?_append, h]
    rfl

theorem getOrCreateInv_preserves (c : String) (s : List Investment) (row : InvRow)
    (key : String) (rec : Investment)
    (h : s.find? (fun i => i.investment_id == key) = some rec) :
    (getOrCreateInv c s row).find? (fun i => i.investment_id == key) = some rec := by
  unfold getOrCreateInv
  split
  · exact h
  · rw [List.find?_append, h]
    rfl

theorem foldl_getOrCreateTxn_preserves (c : String) (rows : List TxnRow) :
    ∀ (s : List Transaction) (key : String) (rec : Transaction),
      s.find? (fun t => t.transaction_id == key) = some rec →
      (rows.foldl (fun s row => getOrCreateTxn c s row) s).find?
        (fun t => t.transaction_id == key) = some rec := by
  induction rows with
  | nil => intro s key rec h; exact h
  | cons r rs ih =>
      intro s key rec h
      rw [List.foldl_cons]
      exact ih _ _ _ (getOrCreateTxn_preserves c s r key rec h)

theorem foldl_getOrCreateInv_preserves (c : String) (rows : List InvRow) :
    ∀ (s : List Investment) (key : String) (rec : Investment),
      s.find? (fun i => i.investment_id == key) = some rec →
      (rows.foldl (fun s row => getOrCreateInv c s row) s).find?
        (fun i => i.investment_id == key) = some rec := by
  induction rows with
  | nil => intro s key rec h; exact h
  | cons r rs ih =>
      intro s key rec h
      rw [List.foldl_cons]
      exact ih _ _ _ (getOrCreateInv_preserves c s r key rec h)

theorem processUploadedFile_transaction (customer : String) (rows : List TxnRow)
    (store : Store) :
    processUploadedFile "transaction" customer (.transactionRows rows) store
      = .ok
          ({ store with
              transactions := rows.foldl
                (fun s row => getOrCreateTxn customer s row) store.transactions },
           rows.length) := by
  simp [processUploadedFile, foldl_getOrCreateTxn_count]

theorem processUploadedFile_investment (customer : String) (rows : List InvRow)
    (store : Store) :
    processUploadedFile "investment" customer (.investmentRows rows) store
      = .ok
          ({ store with
              investments := rows.foldl
                (fun s row => getOrCreateInv customer s row) store.investments },
           rows.length) := by
  simp [processUploadedFile, foldl_getOrCreateInv_count]

/-- C4: re-importing rows whose identity key already exists leaves the
stored records unchanged (create-if-absent, never overwrite), yet every row
— no-ops included — is counted, so the returned total equals the number of
rows processed; this holds for both supported file types. -/
theorem bulk_import_idempotent (store : Store) (customer : String)
    (trows : List TxnRow) (irows : List InvRow) :
    (∃ store2,
      processUploadedFile "transaction" customer (.transactionRows trows) store
        = .ok (store2, trows.length) ∧
      ∀ row ∈ trows, ∀ rec,
        store.transactions.find?
          (fun t => t.transaction_id == row.transaction_id) = some rec →
        store2.transactions.find?
          (fun t => t.transaction_id == row.transaction_id) = some rec) ∧
    (∃ store2,
      processUploadedFile "investment" customer (.investmentRows irows) store
        = .ok (store2, irows.length) ∧
      ∀ row ∈ irows, ∀ rec,
        store.investments.find?
          (fun i => i.investment_id == row.investment_id) = some rec →
        store2.investments.find?
          (fun i => i.investment_id == row.investment_id) = some rec) := by
  constructor
  · refine ⟨_, processUploadedFile_transaction customer trows store, ?_⟩
    intro row _ rec h
    exact foldl_getOrCreateTxn_preserves customer trows store.transactions _ rec h
  · refine ⟨_, processUploadedFile_investment customer irows store, ?_⟩
    intro row _ rec h
    exact foldl_getOrCreateInv_preserves customer irows store.investments _ rec h

/-- C4 (witness): importing a row whose key `T1` already exists into a
concrete store: the call reports 1 row imported and the stored record is
unchanged. -/
theorem bulk_import_idempotent_witness :
    ((⟨[], [⟨"T1", "C1", 0, "food", "M", 100, "upi", ""⟩], [], [], [],
        []⟩ : Store).transactions.find?
      (fun t => t.transaction_id == "T1")
      = some ⟨"T1", "C1", 0, "food", "M", 100, "upi", ""⟩) ∧
    ∃ store2,
      processUploadedFile "transaction" "C1"
        (.transactionRows [⟨"T1", 0, "food", "M", 100, none, none⟩])
        ⟨[], [⟨"T1", "C1", 0, "food", "M", 100, "upi", ""⟩], [], [], [], []⟩
        = .ok (store2, 1) ∧
      store2.transactions.find? (fun t => t.transaction_id == "T1")
        = some ⟨"T1", "C1", 0, "food", "M", 100, "upi", ""⟩ := by
  obtain ⟨store2, heq, hpres⟩ :=
    (bulk_import_idempotent
      ⟨[], [⟨"T1", "C1", 0, "food", "M", 100, "upi", ""⟩], [], [], [], []⟩
      "C1" [⟨"T1", 0, "food", "M", 100, none, none⟩] []).1
  exact ⟨rfl, store2, heq,
    hpres ⟨"T1", 0, "food", "M", 100, none, none⟩ (by simp)
      ⟨"T1", "C1", 0, "food", "M", 100, "upi", ""⟩ rfl⟩

end Chatbot

namespace Chatbot

/-! ## Claim C10 — uploads of unsupported file types -/

/-- C10: an upload whose `file_type` is neither `transaction` nor
`investment` creates no Transaction or Investment records and imports 0
rows, yet the endpoint reports success (201) and the file's metadata record
is stored as processed with `records_imported = 0`.  The `hids` hypothesis
is the store invariant that auto-assigned metadata ids are positions. -/
theorem upload_other_type (store : Store) (fn ft cid : String)
    (data : UploadRows) (cust : Customer)
    (hft1 : ft ≠ "transaction") (hft2 : ft ≠ "investment") (hft0 : ft ≠ "")
    (hcid0 : cid ≠ "")
    (hcust : store.customers.find? (fun c => c.customer_id == cid) = some cust)
    (hids : ∀ r ∈ store.uploadedFiles, r.id ≠ store.uploadedFiles.length) :
    uploadFile store true fn (some ft) (some cid) data
      = ({ store with
            uploadedFiles := store.uploadedFiles ++
              [{ id := store.uploadedFiles.length, file_name := fn,
                 file_type := ft, uploaded_by := cid, processed := true,
                 records_imported := 0 }] },
         .created 0) := by
  have hb1 : (ft == "transaction") = false := beq_eq_false_iff_ne.mpr hft1
  have hb2 : (ft == "investment") = false := beq_eq_false_iff_ne.mpr hft2
  unfold uploadFile
  simp only [Bool.not_true, Bool.false_eq_true, if_false]
  rw [if_neg (by simp [hft0, hcid0])]
  rw [hcust]
  unfold processUploadedFile
  rw [hb1, hb2]
  simp only [Bool.false_eq_true, if_false]
  have hmap : ∀ (l : List UploadedFileRec) (fid : Nat),
      (∀ r ∈ l, r.id ≠ fid) →
      l.map (fun r => if r.id = fid then
        { r with processed := true, records_imported := 0 } else r) = l := by
    intro l fid hl
    induction l with
    | nil => rfl
    | cons r rs ih =>
        rw [List.map_cons, if_neg (hl r (List.mem_cons_self _ _)),
          ih (fun x hx => hl x (List.mem_cons_of_mem _ hx))]
  simp only [List.map_append, List.map_cons, List.map_nil]
  rw [hmap store.uploadedFiles store.uploadedFiles.length hids]
  simp

/-- C10 (witness): the statement applied to a concrete store and an upload
of declared type `customer`. -/
theorem upload_other_type_witness :
    (("customer" : String) ≠ "transaction") ∧
    (("customer" : String) ≠ "investment") ∧
    ((⟨[⟨"C1", "Asha", 30, "low", 0, "g", 0, "e", "p"⟩], [], [], [], [],
        []⟩ : Store).customers.find? (fun c => c.customer_id == "C1")
      = some ⟨"C1", "Asha", 30, "low", 0, "g", 0, "e", "p"⟩) ∧
    uploadFile ⟨[⟨"C1", "Asha", 30, "low", 0, "g", 0, "e", "p"⟩], [], [], [], [], []⟩
        true "cust.csv" (some "customer") (some "C1") (.transactionRows [])
      = ({ (⟨[⟨"C1", "Asha", 30, "low", 0, "g", 0, "e", "p"⟩], [], [], [], [],
            []⟩ : Store) with
            uploadedFiles := [] ++
              [{ id := 0, file_name := "cust.csv", file_type := "customer",
                 uploaded_by := "C1", processed := true,
                 records_imported := 0 }] },
         .created 0) :=
  ⟨by decide, by decide, rfl,
   upload_other_type _ "cust.csv" "customer" "C1" (.transactionRows [])
     ⟨"C1", "Asha", 30, "low", 0, "g", 0, "e", "p"⟩ (by decide) (by decide)
     (by decide) (by decide) rfl (by simp)⟩

end Chatbot
